import Mathlib

/-!
Verification development for the busy-book generator (`src/main.py`).

The script is embedded shallowly:
* the two Bedrock generative services are black-box external collaborators,
  modelled as per-call outcome oracles (`CallResult`): a call either throws
  or returns a payload;
* the reportlab canvas is modelled as an accumulating list of draw
  operations (`DrawOp`), sealed into pages by `showPage`;
* layout arithmetic is carried out exactly over `ℚ` (1 inch = 72 points,
  letter = 612 x 792 points, as in reportlab);
* filesystem writes are recorded structurally (`FileRecord`), one record
  per `image.save` call, since path formatting is injective renaming;
* Python strings are embedded as `List Char`.
-/

namespace BusyBook

/-- One point-unit inch, as in reportlab (`inch = 72`). -/
def inch : ℚ := 72

/-- Width of the letter page size used throughout `main.py` (612 points). -/
def pageWidth : ℚ := 612

/-- Height of the letter page size used throughout `main.py` (792 points). -/
def pageHeight : ℚ := 792

/-- A decoded raster image; only its pixel dimensions (`image.size` in the
source) are relevant to the layout code. -/
structure RasterImage where
  width : Nat
  height : Nat
deriving DecidableEq

/-- Outcome of one synchronous call to an external service: the transport
either raises an exception or returns a decoded payload. -/
inductive CallResult (α : Type) where
  | throws : CallResult α
  | ok (val : α) : CallResult α
deriving DecidableEq

/-- Python `random.randint lo hi` (both ends inclusive), driven by an
arbitrary entropy value `r`: the uniform residue embedding of a draw from
the closed interval. -/
def randint (lo hi : Nat) (r : Nat) : Nat := lo + r % (hi - lo + 1)

/-- One weighted text prompt of the Stability request body. -/
structure TextPrompt where
  text : String
  weight : Int
deriving DecidableEq

/-- The Stability request body built in `generate_image`
(`main.py` lines 42-58). -/
structure ImageRequest where
  text_prompts : List TextPrompt
  cfg_scale : Nat
  seed : Nat
  steps : Nat
  samples : Nat
  style_preset : String
deriving DecidableEq

/-- Request construction of `generate_image` (`main.py` lines 42-58):
positively weighted prompt, negatively weighted negative prompt, fixed
guidance scale 10, random 32-bit seed, 50 steps, one sample. -/
def imageRequestBody (prompt negative_prompt stylePreset : String) (r : Nat) :
    ImageRequest :=
  { text_prompts := [⟨prompt, 1⟩, ⟨negative_prompt, -1⟩]
    cfg_scale := 10
    seed := randint 0 4294967295 r
    steps := 50
    samples := 1
    style_preset := stylePreset }

/-- Outcome handling of `generate_image` (`main.py` lines 60-81): a thrown
transport error is caught and logged (`none`), an empty artifact list is a
logged warning (`none`), otherwise the first artifact's decoded image is
returned. The artifact list carries already-decoded images. -/
def generate_image (outcome : CallResult (List RasterImage)) :
    Option RasterImage :=
  match outcome with
  | .throws => none
  | .ok artifacts =>
    match artifacts with
    | [] => none
    | a :: _ => some a

/-- Python `str.isspace` characters relevant to `strip` and `\s`. -/
def pyIsSpace (c : Char) : Bool :=
  c == ' ' || c == Char.ofNat 9 || c == Char.ofNat 10 || c == Char.ofNat 13 ||
    c == Char.ofNat 11 || c == Char.ofNat 12

/-- Python `str.lstrip()`. -/
def lstrip (s : List Char) : List Char := s.dropWhile pyIsSpace

/-- Python `str.rstrip()`. -/
def rstrip (s : List Char) : List Char :=
  (s.reverse.dropWhile pyIsSpace).reverse

/-- Python `str.strip()`. -/
def pyStrip (s : List Char) : List Char := rstrip (lstrip s)

/-- The characters strictly after the first colon of `s`
(Python `text[text.find(char) + 1:]` for the colon). -/
def afterColon (s : List Char) : List Char :=
  (s.dropWhile (fun c => c != ':')).tail

/-- The apostrophe character (avoids a literal quote in string data). -/
def apos : Char := Char.ofNat 39

/-- The four conversational phrases of the regex in `generate_text`
(`main.py` line 112), stored lowercase for the `IGNORECASE` match. -/
def introPhrases : List (List Char) :=
  [['h', 'e', 'r', 'e', apos, 's', ' ', 'a'],
   ['h', 'e', 'r', 'e', ' ', 'i', 's', ' ', 'a'],
   ['s', 'u', 'r', 'e', ','],
   ['c', 'e', 'r', 't', 'a', 'i', 'n', 'l', 'y', ',']]

/-- Case-insensitive test that `s` starts with the lowercase phrase `p`. -/
def ciStartsWith (p s : List Char) : Bool :=
  (s.take p.length).map Char.toLower == p

/-- Meaning of `re.sub` with the anchored, case-insensitive phrase list
of `main.py` line 112: strip at most one leading phrase, together with the
greedy run of whitespace after it.  The alternatives are tried in order at
position 0 only (no `MULTILINE`), so at most one substitution happens. -/
def stripIntroSub (s : List Char) : List Char :=
  match introPhrases.find? (fun p => ciStartsWith p s) with
  | some p => (s.drop p.length).dropWhile pyIsSpace
  | none => s

/-- Text post-processing of `generate_text` (`main.py` lines 104-112):
strip the raw model text, then either keep the trimmed remainder after the
first colon, or strip one leading conversational phrase. -/
def clean_text (raw : List Char) : List Char :=
  let text := pyStrip raw
  if ':' ∈ text then pyStrip (afterColon text)
  else stripIntroSub text

/-- Outcome handling of `generate_text` (`main.py` lines 83-117): any error
is caught, printed and converted to `none`; otherwise the first content
element's text is post-processed with `clean_text`. -/
def generate_text (outcome : CallResult (List Char)) : Option (List Char) :=
  match outcome with
  | .throws => none
  | .ok raw => some (clean_text raw)

/-- State of the greedy line-wrapping machine: lines committed so far, the
width occupied on the current line, and the width of the still-unfinished
word buffer. -/
structure WrapState where
  lines : Nat
  cur : ℚ
  wbuf : ℚ
deriving DecidableEq

/-- Commit the buffered word to the current line, opening a new line when
the line is empty so far (`lines = 0`) or the word no longer fits. -/
def commitWord (avail spaceW : ℚ) (st : WrapState) : WrapState :=
  if st.wbuf = 0 then st
  else if st.lines = 0 ∨ avail < st.cur + spaceW + st.wbuf then
    ⟨st.lines + 1, st.wbuf, 0⟩
  else ⟨st.lines, st.cur + spaceW + st.wbuf, 0⟩

/-- Process one character of paragraph text: whitespace commits the
buffered word, any other character widens it by one character width. -/
def wrapChar (avail charW spaceW : ℚ) (st : WrapState) (c : Char) : WrapState :=
  if pyIsSpace c then commitWord avail spaceW st
  else { st with wbuf := st.wbuf + charW }

/-- Modelled from the spec: `Paragraph.wrap` of the external reportlab
collaborator ("the wrapped height of the fact body at the available text
width").  Greedy word wrap with a fixed-width character model: the number
of lines needed for `text` at line width `avail`. -/
def wrapLines (avail charW spaceW : ℚ) (text : List Char) : Nat :=
  (commitWord avail spaceW
    (text.foldl (wrapChar avail charW spaceW) ⟨0, 0, 0⟩)).lines

/-- Character width of the body font model (12 pt `ComicSans`). -/
def bodyCharW : ℚ := 6

/-- Inter-word space width of the body font model. -/
def bodySpaceW : ℚ := 6

/-- Line leading of the body paragraph style (`BodyText`, leading 12). -/
def bodyLeading : ℚ := 12

/-- Character width of the header font model (16 pt `ComicSans`). -/
def headerCharW : ℚ := 8

/-- Inter-word space width of the header font model. -/
def headerSpaceW : ℚ := 8

/-- Line leading of the header paragraph style (`Heading2`, leading 18). -/
def headerLeading : ℚ := 18

/-- Width available to the wrapped paragraphs
(`main.py` line 167: `width - 2.2*inch`). -/
def availableWidth : ℚ := pageWidth - (11 / 5) * inch

/-- The fixed header text of every fun-fact box (`main.py` line 163). -/
def headerText : List Char := "Fun Fact:".data

/-- Wrapped height of the fixed header paragraph (`main.py` line 168). -/
def headerHeight : ℚ :=
  (wrapLines availableWidth headerCharW headerSpaceW headerText : ℚ) *
    headerLeading

/-- Wrapped height of the fact body paragraph (`main.py` line 169). -/
def factHeight (text : List Char) : ℚ :=
  (wrapLines availableWidth bodyCharW bodySpaceW text : ℚ) * bodyLeading

/-- The fact string actually handed to the external `Paragraph`
constructor: an absent generation result behaves as empty content
(the spec, section 4.2: an empty fact is drawn inside an empty-sized
box). -/
def factChars (text : Option (List Char)) : List Char := text.getD []

/-- Height of the fun-fact box (`main.py` line 170): header plus body
wrapped heights plus 0.3 inch of padding. -/
def totalHeightOf (text : Option (List Char)) : ℚ :=
  headerHeight + factHeight (factChars text) + (3 / 10) * inch

/-- Width at which every page image is drawn
(`main.py` line 153: `width - 2*inch`). -/
def displayWidth : ℚ := pageWidth - 2 * inch

/-- Height at which a page image is drawn (`main.py` lines 152-154):
the display width times the image's pixel aspect ratio. -/
def displayHeight (image : RasterImage) : ℚ :=
  displayWidth * ((image.height : ℚ) / (image.width : ℚ))

/-- The `y` coordinate handed to `drawImage` for a page image
(`main.py` line 155), i.e. the drawn bottom edge in PDF coordinates. -/
def imageBottomY (image : RasterImage) : ℚ :=
  pageHeight - displayHeight image - inch

/-- The fill colors the script selects. `translucentWhite` is the
`Color 1 1 1` with alpha 0.3 wash of the cover page. -/
inductive ColorTag where
  | lightyellow : ColorTag
  | black : ColorTag
  | translucentWhite : ColorTag
deriving DecidableEq

/-- One call against the reportlab canvas, recorded shallowly. -/
inductive DrawOp where
  | setPageSize (w h : ℚ) : DrawOp
  | drawImage (x y w h : ℚ) : DrawOp
  | setFillColor (c : ColorTag) : DrawOp
  | rect (x y w h : ℚ) (fill stroke : Bool) : DrawOp
  | paragraphOn (text : List Char) (x y : ℚ) : DrawOp
  | drawString (x y : ℚ) (text : List Char) : DrawOp
deriving DecidableEq

/-- The page-number footer label (`main.py` line 185: `f"Page ..."` with
the loop index interpolated). -/
def pageLabel (page_number : Nat) : List Char :=
  "Page ".data ++ (Nat.repr page_number).data

/-- The canvas calls of `create_busybook_page` (`main.py` lines 145-187),
in source order: page size, the aspect-preserving image, the light-yellow
fact box, header and body paragraphs, and the footer. -/
def busybookPageOps (image : RasterImage) (text : Option (List Char))
    (page_number : Nat) : List DrawOp :=
  [.setPageSize pageWidth pageHeight,
   .drawImage inch (imageBottomY image) displayWidth (displayHeight image),
   .setFillColor .lightyellow,
   .rect inch inch (pageWidth - 2 * inch) (totalHeightOf text) true true,
   .paragraphOn headerText ((11 / 10) * inch)
     (inch + totalHeightOf text - headerHeight),
   .paragraphOn (factChars text) ((11 / 10) * inch) ((11 / 10) * inch),
   .setFillColor .black,
   .drawString (pageWidth / 2) (inch / 2) (pageLabel page_number)]

/-- The reportlab canvas: sealed pages, the operations of the page being
drawn, and whether `save` has been called. -/
structure Canvas where
  pages : List (List DrawOp)
  current : List DrawOp
  saved : Bool
deriving DecidableEq

/-- A canvas as `canvas.Canvas(...)` returns it: nothing drawn yet. -/
def Canvas.new : Canvas := ⟨[], [], false⟩

/-- Record a batch of canvas calls on the current page. -/
def Canvas.drawMany (c : Canvas) (ops : List DrawOp) : Canvas :=
  { c with current := c.current ++ ops }

/-- reportlab `showPage`: seal the current page and start a fresh one. -/
def Canvas.showPage (c : Canvas) : Canvas :=
  ⟨c.pages ++ [c.current], [], c.saved⟩

/-- reportlab `save`: finalize the document. -/
def Canvas.save (c : Canvas) : Canvas := { c with saved := true }

/-- One filesystem write of the script, recorded structurally: the PNG
path components (`os.path.join(output_folder, theme, name)`) are kept as
fields, the name shape as the constructor. -/
inductive FileRecord where
  | coverPng (folder theme : String) : FileRecord
  | pagePng (folder theme : String) (page : Nat) : FileRecord
deriving DecidableEq

/-- `create_cover_page` (`main.py` lines 119-143): generate the cover
image; when one is returned, persist it and draw it full-bleed; always
overlay the translucent white wash, then seal the page. -/
def create_cover_page (c : Canvas) (coverOutcome : CallResult (List RasterImage))
    (theme output_folder : String) : Canvas × List FileRecord :=
  let cover_image := generate_image coverOutcome
  match cover_image with
  | some _ =>
    ((c.drawMany
        [.drawImage 0 0 pageWidth pageHeight,
         .setFillColor .translucentWhite,
         .rect 0 0 pageWidth pageHeight true false]).showPage,
      [.coverPng output_folder theme])
  | none =>
    ((c.drawMany
        [.setFillColor .translucentWhite,
         .rect 0 0 pageWidth pageHeight true false]).showPage,
      [])

/-- `create_busybook_page` (`main.py` lines 145-187) as a canvas
transformer: draw the page operations and seal the page. -/
def create_busybook_page (c : Canvas) (image : RasterImage)
    (text : Option (List Char)) (page_number : Nat) : Canvas :=
  (c.drawMany (busybookPageOps image text page_number)).showPage

/-- The outcomes the external services deliver over one run of
`generate_busybook`: one image call for the cover and, per loop index, one
image call and one text call. -/
structure Env where
  cover : CallResult (List RasterImage)
  pageImage : Nat → CallResult (List RasterImage)
  pageText : Nat → CallResult (List Char)

/-- The body of the page loop of `generate_busybook`
(`main.py` lines 204-219): request the image and the text; with an image,
persist the page PNG and render the page; otherwise log and skip. -/
def busybookStep (env : Env) (theme output_folder : String)
    (acc : Canvas × List FileRecord) (page : Nat) : Canvas × List FileRecord :=
  let image := generate_image (env.pageImage page)
  let text := generate_text (env.pageText page)
  match image with
  | some img =>
    (create_busybook_page acc.1 img text page,
      acc.2 ++ [.pagePng output_folder theme page])
  | none => acc

/-- Result of one `generate_busybook` run: the finished document and the
PNG files written next to it. -/
structure RunResult where
  canvas : Canvas
  files : List FileRecord
deriving DecidableEq

/-- `generate_busybook` (`main.py` lines 190-222): open the document,
render the cover, loop over pages `1..num_pages`, and save. -/
def generate_busybook (env : Env) (theme : String) (num_pages : Nat)
    (output_folder : String) : RunResult :=
  let c := Canvas.new
  let acc := create_cover_page c env.cover theme output_folder
  let acc := (List.range' 1 num_pages).foldl
    (busybookStep env theme output_folder) acc
  ⟨acc.1.save, acc.2⟩

/-- The loop indices whose image call succeeds: exactly the pages
physically emitted into the PDF after the cover. -/
def emitted (env : Env) (num_pages : Nat) : List Nat :=
  (List.range' 1 num_pages).filter
    (fun p => (generate_image (env.pageImage p)).isSome)

/-- The draw operations the loop emits for a succeeding index. -/
def pageOpsAt (env : Env) (page : Nat) : List DrawOp :=
  match generate_image (env.pageImage page) with
  | some img => busybookPageOps img (generate_text (env.pageText page)) page
  | none => []

/-- The draw operations of the cover page, by cover-call outcome. -/
def coverOpsOf (env : Env) : List DrawOp :=
  match generate_image env.cover with
  | some _ =>
    [.drawImage 0 0 pageWidth pageHeight,
     .setFillColor .translucentWhite,
     .rect 0 0 pageWidth pageHeight true false]
  | none =>
    [.setFillColor .translucentWhite,
     .rect 0 0 pageWidth pageHeight true false]

/-- The files the cover stage writes, by cover-call outcome. -/
def coverFilesOf (env : Env) (theme output_folder : String) :
    List FileRecord :=
  match generate_image env.cover with
  | some _ => [.coverPng output_folder theme]
  | none => []

/-- A concrete 512 x 512 artifact image used to instantiate theorems. -/
def imgSquare : RasterImage := ⟨512, 512⟩

/-- A concrete run environment: every call succeeds except the image call
of page 2, which throws. -/
def envW1 : Env :=
  { cover := .ok [imgSquare]
    pageImage := fun p => if p = 2 then .throws else .ok [imgSquare]
    pageText := fun _ => .ok "hi".data }

/-- A concrete run environment: every call succeeds except the text call
of page 1, which throws. -/
def envW2 : Env :=
  { cover := .ok [imgSquare]
    pageImage := fun _ => .ok [imgSquare]
    pageText := fun p => if p = 1 then .throws else .ok "hi".data }

/-- Modelled from the spec: reportlab `drawString` draws text left-anchored
at its `x` argument (centering is a different canvas method).  Under a
fixed-advance font model with per-character advance `cw`, a string of
length `n` drawn at `x` spans `[x, x + n * cw]`. -/
def stringWidthM (cw : ℚ) (s : List Char) : ℚ := (s.length : ℚ) * cw

/-- Horizontal center of the drawn extent of a left-anchored string. -/
def drawnCenterM (cw x : ℚ) (s : List Char) : ℚ := x + stringWidthM cw s / 2

/-- The spec's reading of the footer call: the label drawn at the source's
`x = width/2` is horizontally centered on the page. -/
def footerCenteredM (cw : ℚ) (page_number : Nat) : Prop :=
  drawnCenterM cw (pageWidth / 2) (pageLabel page_number) = pageWidth / 2

/-- The spec's example input, with its apostrophe spelled out:
the characters of the text starting with a capitalized first phrase. -/
def sharkInput : List Char :=
  ['H', 'e', 'r', 'e', apos, 's', ' ', 'a'] ++ " fun fact about sharks".data

theorem create_cover_page_eq (c : Canvas) (env : Env)
    (theme output_folder : String) (hcur : c.current = []) :
    create_cover_page c env.cover theme output_folder =
      (⟨c.pages ++ [coverOpsOf env], [], c.saved⟩,
        coverFilesOf env theme output_folder) := by
  cases h : generate_image env.cover <;>
    simp [create_cover_page, coverOpsOf, coverFilesOf, h, Canvas.drawMany,
      Canvas.showPage, hcur]

theorem busybook_foldl (env : Env) (theme output_folder : String)
    (l : List Nat) (c : Canvas) (fs : List FileRecord)
    (hcur : c.current = []) :
    l.foldl (busybookStep env theme output_folder) (c, fs) =
      (⟨c.pages ++
          ((l.filter (fun p => (generate_image (env.pageImage p)).isSome)).map
            (pageOpsAt env)),
        [], c.saved⟩,
       fs ++
         ((l.filter (fun p => (generate_image (env.pageImage p)).isSome)).map
           (FileRecord.pagePng output_folder theme))) := by
  induction l generalizing c fs with
  | nil =>
    obtain ⟨pages, cur, sv⟩ := c
    simp only [Canvas.current] at hcur
    subst hcur
    simp
  | cons p l ih =>
    simp only [List.foldl_cons]
    cases h : generate_image (env.pageImage p) with
    | none =>
      have hstep : busybookStep env theme output_folder (c, fs) p = (c, fs) := by
        simp [busybookStep, h]
      rw [hstep, ih c fs hcur]
      simp [List.filter_cons, h]
    | some img =>
      have hstep : busybookStep env theme output_folder (c, fs) p =
          (⟨c.pages ++ [busybookPageOps img (generate_text (env.pageText p)) p],
            [], c.saved⟩,
           fs ++ [FileRecord.pagePng output_folder theme p]) := by
        simp [busybookStep, h, create_busybook_page, Canvas.drawMany,
          Canvas.showPage, hcur]
      rw [hstep, ih _ _ rfl]
      simp [List.filter_cons, h, pageOpsAt]

theorem generate_busybook_spec (env : Env) (theme : String) (n : Nat)
    (output_folder : String) :
    generate_busybook env theme n output_folder =
      ⟨⟨coverOpsOf env :: (emitted env n).map (pageOpsAt env), [], true⟩,
        coverFilesOf env theme output_folder ++
          (emitted env n).map (FileRecord.pagePng output_folder theme)⟩ := by
  simp only [generate_busybook]
  rw [create_cover_page_eq Canvas.new env theme output_folder rfl]
  rw [busybook_foldl env theme output_folder _ _ _ rfl]
  simp [Canvas.save, emitted, Canvas.new]

theorem mem_emitted_iff (env : Env) (n p : Nat) :
    p ∈ emitted env n ↔
      (1 ≤ p ∧ p ≤ n) ∧ (generate_image (env.pageImage p)).isSome := by
  simp only [emitted, List.mem_filter, List.mem_range'_1]
  constructor
  · rintro ⟨⟨h1, h2⟩, h3⟩
    exact ⟨⟨h1, by omega⟩, h3⟩
  · rintro ⟨⟨h1, h2⟩, h3⟩
    exact ⟨⟨h1, by omega⟩, h3⟩

/-- C2: for every theme and every page count `N ≥ 0`, the PDF produced by
`generate_busybook` contains at least one page — the cover, emitted even
when the cover image generation fails — and at most `N + 1` pages. -/
theorem busybook_page_bounds (env : Env) (theme : String) (n : Nat)
    (output_folder : String) :
    1 ≤ (generate_busybook env theme n output_folder).canvas.pages.length ∧
    (generate_busybook env theme n output_folder).canvas.pages.length ≤
      n + 1 ∧
    (generate_busybook env theme n output_folder).canvas.pages.head? =
      some (coverOpsOf env) := by
  rw [generate_busybook_spec]
  refine ⟨by simp, ?_, by simp⟩
  have hf : (emitted env n).length ≤ n := by
    have h1 := List.length_filter_le
      (fun p => (generate_image (env.pageImage p)).isSome) (List.range' 1 n)
    simpa [emitted] using h1
  simp only [List.length_cons, List.length_map]
  omega

/-- C3: when the image call for a page index returns no artifacts or
throws, `generate_image` returns `none`, the page loop emits no page for
that index, and no page PNG is recorded for it. -/
theorem failed_image_skips_page (env : Env) (theme : String) (n : Nat)
    (output_folder : String) (p : Nat)
    (hfail : env.pageImage p = .throws ∨ env.pageImage p = .ok []) :
    generate_image (env.pageImage p) = none ∧
    p ∉ emitted env n ∧
    (generate_busybook env theme n output_folder).canvas.pages =
      coverOpsOf env :: (emitted env n).map (pageOpsAt env) ∧
    FileRecord.pagePng output_folder theme p ∉
      (generate_busybook env theme n output_folder).files := by
  have hnone : generate_image (env.pageImage p) = none := by
    rcases hfail with h | h <;> simp [generate_image, h]
  have hmem : p ∉ emitted env n := by
    intro hmem
    have := ((mem_emitted_iff env n p).mp hmem).2
    simp [hnone] at this
  refine ⟨hnone, hmem, by rw [generate_busybook_spec], ?_⟩
  rw [generate_busybook_spec]
  intro hin
  rcases List.mem_append.mp hin with hin | hin
  · cases h : generate_image env.cover <;>
      simp [coverFilesOf, h] at hin
  · obtain ⟨q, hq, heq⟩ := List.mem_map.mp hin
    have : q = p := by
      have := (FileRecord.pagePng.injEq _ _ _ _ _ _).mp heq
      exact this.2.2
    exact hmem (this ▸ hq)

/-- C5: every page image is drawn at width `pageWidth - 2 * inch` and at
height `displayWidth * (H / W)`, so the pixel aspect ratio is preserved
(cross multiplication) and the image is never cropped or stretched
non-uniformly. -/
theorem page_image_scaling (image : RasterImage) (text : Option (List Char))
    (page_number : Nat) (hw : 0 < image.width) :
    DrawOp.drawImage inch (imageBottomY image) displayWidth
        (displayHeight image) ∈ busybookPageOps image text page_number ∧
    displayWidth = pageWidth - 2 * inch ∧
    displayHeight image =
      displayWidth * ((image.height : ℚ) / (image.width : ℚ)) ∧
    displayHeight image * (image.width : ℚ) =
      displayWidth * (image.height : ℚ) := by
  refine ⟨by simp [busybookPageOps], rfl, rfl, ?_⟩
  have hw' : (image.width : ℚ) ≠ 0 := Nat.cast_ne_zero.mpr (by omega)
  field_simp [displayHeight]

/-- C5 witness: the scaling facts at a concrete 512 x 768 image. -/
theorem page_image_scaling_witness :
    0 < (RasterImage.mk 512 768).width ∧
    displayHeight ⟨512, 768⟩ * ((512 : Nat) : ℚ) =
      displayWidth * ((768 : Nat) : ℚ) :=
  ⟨by decide, (page_image_scaling ⟨512, 768⟩ none 1 (by decide)).2.2.2⟩

/-- C9: every Stability request carries the prompt at weight 1, the
negative prompt at weight -1, guidance scale 10, 50 steps, one sample, and
a seed inside `[0, 2^32 - 1]`; conversely every value of that interval is
a possible seed. -/
theorem image_request_fields (prompt negative_prompt stylePreset : String)
    (r : Nat) :
    (imageRequestBody prompt negative_prompt stylePreset r).text_prompts =
      [⟨prompt, 1⟩, ⟨negative_prompt, -1⟩] ∧
    (imageRequestBody prompt negative_prompt stylePreset r).cfg_scale = 10 ∧
    (imageRequestBody prompt negative_prompt stylePreset r).steps = 50 ∧
    (imageRequestBody prompt negative_prompt stylePreset r).samples = 1 ∧
    (imageRequestBody prompt negative_prompt stylePreset r).seed ≤
      4294967295 ∧
    (∀ s : Nat, s ≤ 4294967295 →
      ∃ r2 : Nat,
        (imageRequestBody prompt negative_prompt stylePreset r2).seed = s) := by
  refine ⟨rfl, rfl, rfl, rfl, ?_, ?_⟩
  · show randint 0 4294967295 r ≤ 4294967295
    have h := Nat.mod_lt r (show 0 < 4294967295 - 0 + 1 by norm_num)
    simp only [randint]
    omega
  · intro s hs
    refine ⟨s, ?_⟩
    show randint 0 4294967295 s = s
    simp only [randint]
    omega

/-- C9 witness: the seed facts at concrete entropy 7 and target seed
4294967295. -/
theorem image_request_fields_witness :
    (4294967295 : Nat) ≤ 4294967295 ∧
    (imageRequestBody "a" "b" "line-art" 7).seed ≤ 4294967295 ∧
    (∃ r2 : Nat, (imageRequestBody "a" "b" "line-art" r2).seed = 4294967295) :=
  ⟨le_refl _, (image_request_fields "a" "b" "line-art" 7).2.2.2.2.1,
    (image_request_fields "a" "b" "line-art" 7).2.2.2.2.2 4294967295
      (le_refl _)⟩

/-- C10: the page image is top-anchored one inch below the page top with
no fit check: its drawn bottom edge sits at
`pageHeight - inch - displayWidth * (H / W)`; whenever `H / W` exceeds
`(pageHeight - inch) / displayWidth` that edge is negative (below the page
bottom) and in particular below the fact box's bottom edge; at a 1 x 2
image the bottom edge is -216. -/
theorem image_bottom_overflow (image : RasterImage)
    (text : Option (List Char)) (page_number : Nat) (hw : 0 < image.width) :
    DrawOp.drawImage inch (imageBottomY image) displayWidth
        (displayHeight image) ∈ busybookPageOps image text page_number ∧
    imageBottomY image =
      pageHeight - inch -
        displayWidth * ((image.height : ℚ) / (image.width : ℚ)) ∧
    imageBottomY image + displayHeight image = pageHeight - inch ∧
    ((pageHeight - inch) / displayWidth <
        (image.height : ℚ) / (image.width : ℚ) →
      imageBottomY image < 0 ∧ imageBottomY image < inch) ∧
    imageBottomY ⟨1, 2⟩ = -216 := by
  refine ⟨by simp [busybookPageOps], by
    simp only [imageBottomY, displayHeight]; ring, by
    simp only [imageBottomY, displayHeight]; ring, ?_, by
    norm_num [imageBottomY, displayHeight, displayWidth, pageWidth,
      pageHeight, inch]⟩
  intro hratio
  have h468 : (0 : ℚ) < displayWidth := by
    norm_num [displayWidth, pageWidth, inch]
  have h720 : pageHeight - inch <
      displayWidth * ((image.height : ℚ) / (image.width : ℚ)) := by
    have := (div_lt_iff₀ h468).mp hratio
    linarith [this]
  constructor
  · simp only [imageBottomY, displayHeight]
    linarith
  · simp only [imageBottomY, displayHeight]
    have : (0 : ℚ) < inch := by norm_num [inch]
    linarith

/-- C10 witness: the overflow facts at the concrete 1 x 2 image. -/
theorem image_bottom_overflow_witness :
    0 < (RasterImage.mk 1 2).width ∧
    (pageHeight - inch) / displayWidth <
      (((RasterImage.mk 1 2).height : Nat) : ℚ) /
        (((RasterImage.mk 1 2).width : Nat) : ℚ) ∧
    imageBottomY ⟨1, 2⟩ < 0 ∧ imageBottomY ⟨1, 2⟩ < inch :=
  ⟨by decide,
   by norm_num [pageHeight, inch, displayWidth, pageWidth],
   (image_bottom_overflow ⟨1, 2⟩ none 1 (by decide)).2.2.2.1
     (by norm_num [pageHeight, inch, displayWidth, pageWidth])⟩

/-- C3 witness: page 2 of `envW1` throws, is skipped, and leaves no PNG
record. -/
theorem failed_image_skips_page_witness :
    (envW1.pageImage 2 = .throws ∨ envW1.pageImage 2 = .ok []) ∧
    (generate_image (envW1.pageImage 2) = none ∧
     2 ∉ emitted envW1 3 ∧
     (generate_busybook envW1 "Animals" 3 "BusyBooks").canvas.pages =
       coverOpsOf envW1 :: (emitted envW1 3).map (pageOpsAt envW1) ∧
     FileRecord.pagePng "BusyBooks" "Animals" 2 ∉
       (generate_busybook envW1 "Animals" 3 "BusyBooks").files) :=
  ⟨Or.inl rfl,
   failed_image_skips_page envW1 "Animals" 3 "BusyBooks" 2 (Or.inl rfl)⟩

/-- C1: no image-generation or text-generation failure aborts the page
loop or the run: the document is always saved, its page count is one plus
the number of succeeding image calls; and a page whose image is present
but whose text result is `none` or empty is still rendered — its fact body
wraps to height zero, so the fact appears inside an empty-sized box — and
every later succeeding index is still emitted. -/
theorem text_failure_never_aborts (env : Env) (theme : String) (n : Nat)
    (output_folder : String) (p : Nat) (img : RasterImage)
    (hp1 : 1 ≤ p) (hp2 : p ≤ n)
    (himg : generate_image (env.pageImage p) = some img)
    (htext : generate_text (env.pageText p) = none ∨
      generate_text (env.pageText p) = some []) :
    (generate_busybook env theme n output_folder).canvas.saved = true ∧
    (generate_busybook env theme n output_folder).canvas.pages.length =
      1 + (emitted env n).length ∧
    p ∈ emitted env n ∧
    busybookPageOps img (generate_text (env.pageText p)) p ∈
      (generate_busybook env theme n output_folder).canvas.pages ∧
    factHeight (factChars (generate_text (env.pageText p))) = 0 ∧
    totalHeightOf (generate_text (env.pageText p)) =
      headerHeight + (3 / 10) * inch ∧
    (∀ q, 1 ≤ q → q ≤ n → (generate_image (env.pageImage q)).isSome →
      q ∈ emitted env n) := by
  have hmem : p ∈ emitted env n :=
    (mem_emitted_iff env n p).mpr ⟨⟨hp1, hp2⟩, by simp [himg]⟩
  have hfact : factChars (generate_text (env.pageText p)) = [] := by
    rcases htext with h | h <;> simp [h, factChars]
  have hfh : factHeight (factChars (generate_text (env.pageText p))) = 0 := by
    rw [hfact]
    simp [factHeight, wrapLines, commitWord]
  refine ⟨?_, ?_, hmem, ?_, hfh, ?_, ?_⟩
  · rw [generate_busybook_spec]
  · rw [generate_busybook_spec]
    simp [Nat.add_comm]
  · rw [generate_busybook_spec]
    have hop : pageOpsAt env p =
        busybookPageOps img (generate_text (env.pageText p)) p := by
      simp [pageOpsAt, himg]
    exact List.mem_cons_of_mem _ (hop ▸ List.mem_map_of_mem _ hmem)
  · simp only [totalHeightOf, hfh]
    ring
  · intro q h1 h2 hs
    exact (mem_emitted_iff env n q).mpr ⟨⟨h1, h2⟩, hs⟩

/-- C1 witness: in `envW2` the text call of page 1 throws, yet page 1 is
emitted, the later page 2 is emitted, and the document is saved. -/
theorem text_failure_never_aborts_witness :
    ((1 : Nat) ≤ 1 ∧ (1 : Nat) ≤ 2 ∧
      generate_image (envW2.pageImage 1) = some imgSquare ∧
      generate_text (envW2.pageText 1) = none) ∧
    (generate_busybook envW2 "Animals" 2 "BusyBooks").canvas.saved = true ∧
    1 ∈ emitted envW2 2 ∧
    2 ∈ emitted envW2 2 :=
  ⟨⟨le_refl 1, by omega, rfl, rfl⟩,
   (text_failure_never_aborts envW2 "Animals" 2 "BusyBooks" 1 imgSquare
      (le_refl 1) (by omega) rfl (Or.inl rfl)).1,
   (text_failure_never_aborts envW2 "Animals" 2 "BusyBooks" 1 imgSquare
      (le_refl 1) (by omega) rfl (Or.inl rfl)).2.2.1,
   (text_failure_never_aborts envW2 "Animals" 2 "BusyBooks" 1 imgSquare
      (le_refl 1) (by omega) rfl (Or.inl rfl)).2.2.2.2.2.2 2 (by omega)
     (le_refl 2) (by decide)⟩

/-- C8: `create_cover_page` always selects the translucent white wash and
draws it as a full-page rectangle, and seals exactly one page, whatever
the cover call's outcome; when a cover image is returned, the cover PNG is
persisted and the image is drawn full-bleed. -/
theorem cover_always_washed (o : CallResult (List RasterImage))
    (theme output_folder : String) :
    (create_cover_page Canvas.new o theme output_folder).1.pages.length =
      1 ∧
    (create_cover_page Canvas.new o theme output_folder).1.current = [] ∧
    DrawOp.setFillColor .translucentWhite ∈
      (create_cover_page Canvas.new o theme output_folder).1.pages.headD
        [] ∧
    DrawOp.rect 0 0 pageWidth pageHeight true false ∈
      (create_cover_page Canvas.new o theme output_folder).1.pages.headD
        [] ∧
    (∀ img, generate_image o = some img →
      (create_cover_page Canvas.new o theme output_folder).2 =
        [.coverPng output_folder theme] ∧
      DrawOp.drawImage 0 0 pageWidth pageHeight ∈
        (create_cover_page Canvas.new o theme output_folder).1.pages.headD
          []) ∧
    (generate_image o = none →
      (create_cover_page Canvas.new o theme output_folder).2 = []) := by
  cases h : generate_image o <;>
    simp [create_cover_page, h, Canvas.new, Canvas.drawMany, Canvas.showPage]

/-- C8 witness: the cover facts when the cover call returns one
artifact. -/
theorem cover_always_washed_witness :
    generate_image (CallResult.ok [imgSquare]) = some imgSquare ∧
    (create_cover_page Canvas.new (.ok [imgSquare]) "Animals"
        "BusyBooks").2 = [.coverPng "BusyBooks" "Animals"] ∧
    DrawOp.drawImage 0 0 pageWidth pageHeight ∈
      (create_cover_page Canvas.new (.ok [imgSquare]) "Animals"
          "BusyBooks").1.pages.headD [] :=
  ⟨rfl,
   (cover_always_washed (.ok [imgSquare]) "Animals" "BusyBooks").2.2.2.2.1
     imgSquare rfl⟩

/-- C7 counterexample: the footer call of the source is
`drawString(width/2, 0.5*inch, label)`, a left-anchored draw starting at
the page's horizontal midline; under any fixed positive character advance
(here 7) the drawn label of page 1 is not horizontally centered on the
page. -/
theorem footer_not_centered :
    DrawOp.drawString (pageWidth / 2) (inch / 2) (pageLabel 1) ∈
      busybookPageOps imgSquare none 1 ∧
    ¬ footerCenteredM 7 1 := by
  constructor
  · simp [busybookPageOps]
  · intro h
    rw [footerCenteredM, drawnCenterM, stringWidthM] at h
    norm_num [pageLabel, pageWidth, Nat.repr, Nat.toDigits, Nat.toDigitsCore]
      at h

/-- C7 amended: every emitted page's footer is drawn with its left anchor
at the page's horizontal midline (`x = width/2`, not centered) at the
fixed vertical offset `0.5 * inch`, and its label carries the loop index
of the page. -/
theorem footer_left_anchored_at_midline (env : Env) (theme : String)
    (n : Nat) (output_folder : String) (p : Nat) (hp : p ∈ emitted env n) :
    ∃ ops ∈ (generate_busybook env theme n output_folder).canvas.pages,
      DrawOp.drawString (pageWidth / 2) (inch / 2) (pageLabel p) ∈ ops := by
  rw [generate_busybook_spec]
  refine ⟨pageOpsAt env p,
    List.mem_cons_of_mem _ (List.mem_map_of_mem _ hp), ?_⟩
  obtain ⟨img, himg⟩ :=
    Option.isSome_iff_exists.mp ((mem_emitted_iff env n p).mp hp).2
  simp [pageOpsAt, himg, busybookPageOps]

/-- C7 witness: in `envW1` page 2 is skipped, and the emitted page 3 still
carries the loop-index label 3. -/
theorem footer_left_anchored_at_midline_witness :
    3 ∈ emitted envW1 3 ∧
    ∃ ops ∈ (generate_busybook envW1 "Animals" 3 "BusyBooks").canvas.pages,
      DrawOp.drawString (pageWidth / 2) (inch / 2) (pageLabel 3) ∈ ops :=
  ⟨by decide,
   footer_left_anchored_at_midline envW1 "Animals" 3 "BusyBooks" 3
     (by decide)⟩

theorem commitWord_lines_le (avail spaceW : ℚ) (st : WrapState) :
    st.lines ≤ (commitWord avail spaceW st).lines := by
  unfold commitWord
  split_ifs <;> simp

theorem commitWord_wbuf_eq_zero (avail spaceW : ℚ) (st : WrapState) :
    (commitWord avail spaceW st).wbuf = 0 := by
  unfold commitWord
  split_ifs with h1 h2 <;> simp [h1]

theorem commitWord_of_wbuf_zero (avail spaceW : ℚ) (st : WrapState)
    (h : st.wbuf = 0) : commitWord avail spaceW st = st := by
  unfold commitWord
  simp [h]

theorem commitWord_idem (avail spaceW : ℚ) (st : WrapState) :
    commitWord avail spaceW (commitWord avail spaceW st) =
      commitWord avail spaceW st :=
  commitWord_of_wbuf_zero avail spaceW _
    (commitWord_wbuf_eq_zero avail spaceW st)

/-- The finalized line count never decreases along one wrap step. -/
theorem wrapChar_measure_mono (avail charW spaceW : ℚ) (st : WrapState)
    (c : Char) (hcw : 0 ≤ charW) (hbuf : 0 ≤ st.wbuf) :
    (commitWord avail spaceW st).lines ≤
      (commitWord avail spaceW (wrapChar avail charW spaceW st c)).lines := by
  unfold wrapChar
  by_cases hsp : pyIsSpace c
  · rw [if_pos hsp, commitWord_idem]
  · rw [if_neg hsp]
    by_cases h0 : st.wbuf = 0
    · rw [commitWord_of_wbuf_zero avail spaceW st h0]
      calc st.lines = ({st with wbuf := st.wbuf + charW} : WrapState).lines :=
            rfl
        _ ≤ _ := commitWord_lines_le avail spaceW _
    · have hpos : 0 < st.wbuf := lt_of_le_of_ne hbuf (Ne.symm h0)
      have h0' : st.wbuf + charW ≠ 0 := by positivity
      unfold commitWord
      simp only [h0, h0', if_false]
      by_cases hcond : st.lines = 0 ∨ avail < st.cur + spaceW + st.wbuf
      · have hcond' : st.lines = 0 ∨
            avail < st.cur + spaceW + (st.wbuf + charW) := by
          rcases hcond with h | h
          · exact Or.inl h
          · exact Or.inr (by linarith)
        rw [if_pos hcond, if_pos hcond']
      · rw [if_neg hcond]
        split_ifs <;> simp

theorem wrapChar_wbuf_nonneg (avail charW spaceW : ℚ) (st : WrapState)
    (c : Char) (hcw : 0 ≤ charW) (hbuf : 0 ≤ st.wbuf) :
    0 ≤ (wrapChar avail charW spaceW st c).wbuf := by
  unfold wrapChar
  split_ifs with hsp
  · rw [commitWord_wbuf_eq_zero]
  · simp only []
    positivity

theorem foldl_wrapChar_wbuf_nonneg (avail charW spaceW : ℚ)
    (u : List Char) (st : WrapState) (hcw : 0 ≤ charW)
    (hbuf : 0 ≤ st.wbuf) :
    0 ≤ (u.foldl (wrapChar avail charW spaceW) st).wbuf := by
  induction u generalizing st with
  | nil => exact hbuf
  | cons c u ih =>
    exact ih _ (wrapChar_wbuf_nonneg avail charW spaceW st c hcw hbuf)

theorem foldl_wrapChar_measure_mono (avail charW spaceW : ℚ)
    (u : List Char) (st : WrapState) (hcw : 0 ≤ charW)
    (hbuf : 0 ≤ st.wbuf) :
    (commitWord avail spaceW st).lines ≤
      (commitWord avail spaceW
        (u.foldl (wrapChar avail charW spaceW) st)).lines := by
  induction u generalizing st with
  | nil => exact le_refl _
  | cons c u ih =>
    calc (commitWord avail spaceW st).lines ≤
        (commitWord avail spaceW (wrapChar avail charW spaceW st c)).lines :=
          wrapChar_measure_mono avail charW spaceW st c hcw hbuf
      _ ≤ _ := ih _ (wrapChar_wbuf_nonneg avail charW spaceW st c hcw hbuf)

/-- Extending the wrapped text never shrinks the greedy line count. -/
theorem wrapLines_mono_append (avail charW spaceW : ℚ) (s u : List Char)
    (hcw : 0 ≤ charW) :
    wrapLines avail charW spaceW s ≤ wrapLines avail charW spaceW (s ++ u) := by
  unfold wrapLines
  rw [List.foldl_append]
  exact foldl_wrapChar_measure_mono avail charW spaceW u _ hcw
    (foldl_wrapChar_wbuf_nonneg avail charW spaceW s ⟨0, 0, 0⟩ hcw
      (le_refl 0))

/-- C6: the fun-fact box drawn by `create_busybook_page` has height equal
to the wrapped header height plus the wrapped fact-body height plus the
fixed 0.3-inch padding, and that height is monotonically non-decreasing in
the fact text: a fact string extending another never produces a smaller
box. -/
theorem fact_box_height (image : RasterImage) (page_number : Nat)
    (s t : List Char) (hext : ∃ u, t = s ++ u) :
    DrawOp.rect inch inch (pageWidth - 2 * inch)
        (headerHeight + factHeight s + (3 / 10) * inch) true true ∈
      busybookPageOps image (some s) page_number ∧
    totalHeightOf (some s) = headerHeight + factHeight s + (3 / 10) * inch ∧
    totalHeightOf (some s) ≤ totalHeightOf (some t) := by
  refine ⟨?_, rfl, ?_⟩
  · simp [busybookPageOps, totalHeightOf, factChars]
  · obtain ⟨u, rfl⟩ := hext
    have hw : wrapLines availableWidth bodyCharW bodySpaceW s ≤
        wrapLines availableWidth bodyCharW bodySpaceW (s ++ u) :=
      wrapLines_mono_append availableWidth bodyCharW bodySpaceW s u
        (by norm_num [bodyCharW])
    have hf : factHeight s ≤ factHeight (s ++ u) := by
      unfold factHeight
      have : (0 : ℚ) ≤ bodyLeading := by norm_num [bodyLeading]
      exact mul_le_mul_of_nonneg_right (by exact_mod_cast hw) this
    unfold totalHeightOf
    simp only [factChars, Option.getD_some]
    linarith

/-- C6 witness: the box-height facts at the concrete extension of
`"ab"` by `" cd"`. -/
theorem fact_box_height_witness :
    (∃ u, "ab cd".data = "ab".data ++ u) ∧
    totalHeightOf (some "ab".data) ≤ totalHeightOf (some "ab cd".data) :=
  ⟨⟨" cd".data, rfl⟩,
   (fact_box_height imgSquare 1 "ab".data "ab cd".data
     ⟨" cd".data, rfl⟩).2.2⟩

theorem dropWhile_append_of_ne_nil {α : Type} (q : α → Bool) (u v : List α)
    (h : u.dropWhile q ≠ []) : (u ++ v).dropWhile q = u.dropWhile q ++ v := by
  induction u with
  | nil => simp at h
  | cons a u ih =>
    by_cases hq : q a
    · simp only [List.dropWhile_cons, hq, if_true, List.cons_append] at h ⊢
      exact ih h
    · simp [List.dropWhile_cons, hq]

theorem dropWhile_append_all {α : Type} (q : α → Bool) (u v : List α)
    (h : ∀ x ∈ u, q x = true) : (u ++ v).dropWhile q = v.dropWhile q := by
  induction u with
  | nil => simp
  | cons a u ih =>
    have ha := h a (List.mem_cons_self a u)
    simp only [List.cons_append, List.dropWhile_cons, ha, if_true]
    exact ih (fun x hx => h x (List.mem_cons_of_mem a hx))

theorem dropWhile_append_of_stop {α : Type} (q : α → Bool) (u : List α)
    (y : α) (v : List α) (hy : q y = false) :
    (u ++ y :: v).dropWhile q = u.dropWhile q ++ y :: v := by
  induction u with
  | nil => simp [List.dropWhile_cons, hy]
  | cons a u ih =>
    by_cases hq : q a
    · simp only [List.cons_append, List.dropWhile_cons, hq, if_true]
      exact ih
    · simp [List.dropWhile_cons, hq]

theorem dropWhile_idem {α : Type} (q : α → Bool) (l : List α) :
    (l.dropWhile q).dropWhile q = l.dropWhile q := by
  induction l with
  | nil => simp
  | cons a l ih =>
    by_cases hq : q a
    · simp [List.dropWhile_cons, hq, ih]
    · simp [List.dropWhile_cons, hq]

theorem mem_dropWhile_of_mem {α : Type} (q : α → Bool) (l : List α) (x : α)
    (hx : x ∈ l) (hqx : q x = false) : x ∈ l.dropWhile q := by
  induction l with
  | nil => simp at hx
  | cons a l ih =>
    by_cases hq : q a
    · rcases List.mem_cons.mp hx with rfl | hmem
      · exact absurd hq (by simp [hqx])
      · simp only [List.dropWhile_cons, hq, if_true]
        exact ih hmem
    · simp [List.dropWhile_cons, hq, hx]

theorem rstrip_append_of_stop (a : List Char) (y : Char) (b : List Char)
    (hy : pyIsSpace y = false) : rstrip (a ++ y :: b) = a ++ y :: rstrip b := by
  unfold rstrip
  rw [List.reverse_append, List.reverse_cons, List.append_assoc,
    List.singleton_append, dropWhile_append_of_stop _ _ _ _ hy]
  simp

theorem rstrip_append_all (x w : List Char)
    (hw : ∀ c ∈ w, pyIsSpace c = true) : rstrip (x ++ w) = rstrip x := by
  unfold rstrip
  rw [List.reverse_append,
    dropWhile_append_all _ _ _ (fun c hc => hw c (List.mem_reverse.mp hc))]

theorem rstrip_eq_nil_iff (z : List Char) :
    rstrip z = [] ↔ ∀ c ∈ z, pyIsSpace c = true := by
  unfold rstrip
  rw [List.reverse_eq_nil_iff, List.dropWhile_eq_nil_iff]
  constructor <;> intro h c hc
  · exact h c (List.mem_reverse.mpr hc)
  · exact h c (List.mem_reverse.mp hc)

theorem rstrip_idem (z : List Char) : rstrip (rstrip z) = rstrip z := by
  unfold rstrip
  rw [List.reverse_reverse, dropWhile_idem]

theorem exists_rstrip_decomp (z : List Char) :
    ∃ w, z = rstrip z ++ w ∧ ∀ c ∈ w, pyIsSpace c = true := by
  refine ⟨(z.reverse.takeWhile pyIsSpace).reverse, ?_, ?_⟩
  · have key : z.reverse.takeWhile pyIsSpace ++ z.reverse.dropWhile pyIsSpace =
        z.reverse := List.takeWhile_append_dropWhile pyIsSpace z.reverse
    calc z = z.reverse.reverse := (List.reverse_reverse z).symm
      _ = (z.reverse.takeWhile pyIsSpace ++
            z.reverse.dropWhile pyIsSpace).reverse := by rw [key]
      _ = rstrip z ++ (z.reverse.takeWhile pyIsSpace).reverse := by
            rw [List.reverse_append]
            rfl
  · intro c hc
    exact List.mem_takeWhile_imp (List.mem_reverse.mp hc)

theorem afterColon_cons_of_ne (c : Char) (t : List Char) (hc : c ≠ ':') :
    afterColon (c :: t) = afterColon t := by
  unfold afterColon
  simp [List.dropWhile_cons, hc]

theorem afterColon_append_of_stop (a b : List Char) (ha : ':' ∉ a) :
    afterColon (a ++ ':' :: b) = b := by
  induction a with
  | nil =>
    unfold afterColon
    simp [List.dropWhile_cons]
  | cons c a ih =>
    have hc : c ≠ ':' := fun h => ha (h ▸ List.mem_cons_self c a)
    rw [List.cons_append, afterColon_cons_of_ne c _ hc]
    exact ih (fun h => ha (List.mem_cons_of_mem c h))

theorem exists_colon_split (s : List Char) (h : ':' ∈ s) :
    ∃ a b, s = a ++ ':' :: b ∧ ':' ∉ a ∧ afterColon s = b := by
  induction s with
  | nil => simp at h
  | cons c t ih =>
    by_cases hc : c = ':'
    · subst hc
      refine ⟨[], t, rfl, by simp, ?_⟩
      unfold afterColon
      simp [List.dropWhile_cons]
    · have ht : ':' ∈ t := by
        rcases List.mem_cons.mp h with h' | h'
        · exact absurd h'.symm hc
        · exact h'
      obtain ⟨a, b, rfl, hna, hac⟩ := ih ht
      refine ⟨c :: a, b, rfl, ?_, ?_⟩
      · intro hmem
        rcases List.mem_cons.mp hmem with h' | h'
        · exact hc h'.symm
        · exact hna h'
      · rw [afterColon_cons_of_ne c _ hc]
        exact hac

theorem colon_mem_lstrip (s : List Char) (h : ':' ∈ s) : ':' ∈ lstrip s :=
  mem_dropWhile_of_mem _ _ _ h (by decide)

theorem colon_mem_rstrip (s : List Char) (h : ':' ∈ s) : ':' ∈ rstrip s := by
  unfold rstrip
  rw [List.mem_reverse]
  exact mem_dropWhile_of_mem _ _ _ (List.mem_reverse.mpr h) (by decide)

theorem colon_mem_pyStrip (s : List Char) (h : ':' ∈ s) : ':' ∈ pyStrip s :=
  colon_mem_rstrip _ (colon_mem_lstrip _ h)

theorem afterColon_lstrip (s : List Char) (h : ':' ∈ s) :
    afterColon (lstrip s) = afterColon s := by
  induction s with
  | nil => simp at h
  | cons c t ih =>
    by_cases hsp : pyIsSpace c
    · have hc : c ≠ ':' := by
        intro h'
        subst h'
        exact absurd hsp (by decide)
      have ht : ':' ∈ t := by
        rcases List.mem_cons.mp h with h' | h'
        · exact absurd h'.symm hc
        · exact h'
      rw [lstrip, List.dropWhile_cons, if_pos hsp, afterColon_cons_of_ne c t hc]
      exact ih ht
    · rw [lstrip, List.dropWhile_cons, if_neg hsp]

theorem afterColon_rstrip (s : List Char) (h : ':' ∈ s) :
    afterColon (rstrip s) = rstrip (afterColon s) := by
  obtain ⟨a, b, rfl, hna, hac⟩ := exists_colon_split s h
  rw [hac, rstrip_append_of_stop a ':' b (by decide)]
  exact afterColon_append_of_stop a (rstrip b) hna

theorem pyStrip_rstrip (z : List Char) : pyStrip (rstrip z) = pyStrip z := by
  obtain ⟨w, hz, hw⟩ := exists_rstrip_decomp z
  by_cases hnil : lstrip (rstrip z) = []
  · have hall : ∀ x ∈ rstrip z, pyIsSpace x = true := by
      have := hnil
      unfold lstrip at this
      rw [List.dropWhile_eq_nil_iff] at this
      exact fun x hx => this x hx
    have hrz : rstrip z = [] := by
      rw [← rstrip_idem z]
      exact (rstrip_eq_nil_iff _).mpr hall
    have hzw : z = w := by
      rw [hrz] at hz
      simpa using hz
    have hlz : lstrip z = [] := by
      unfold lstrip
      rw [List.dropWhile_eq_nil_iff]
      exact fun x hx => by simpa using hw x (hzw ▸ hx)
    unfold pyStrip
    rw [hnil, hlz]
  · have h1 : lstrip z = lstrip (rstrip z) ++ w := by
      conv_lhs => rw [hz]
      unfold lstrip
      exact dropWhile_append_of_ne_nil _ _ _ hnil
    unfold pyStrip
    rw [h1, rstrip_append_all _ _ hw]

theorem pyStrip_sublist (s : List Char) : List.Sublist (pyStrip s) s := by
  have h1 : List.Sublist (lstrip s) s := List.dropWhile_sublist pyIsSpace
  have h2 : List.Sublist (rstrip (lstrip s)) (lstrip s) := by
    unfold rstrip
    have h3 : List.Sublist ((lstrip s).reverse.dropWhile pyIsSpace)
        (lstrip s).reverse :=
      List.dropWhile_sublist pyIsSpace
    have h4 := h3.reverse
    rwa [List.reverse_reverse] at h4
  exact h2.trans h1

theorem colon_not_mem_pyStrip (s : List Char) (h : ':' ∉ s) :
    ':' ∉ pyStrip s :=
  fun hc => h ((pyStrip_sublist s).subset hc)

theorem clean_text_colon (s : List Char) (h : ':' ∈ s) :
    clean_text s = pyStrip (afterColon s) := by
  simp only [clean_text]
  rw [if_pos (colon_mem_pyStrip s h)]
  have h2 : ':' ∈ lstrip s := colon_mem_lstrip s h
  calc pyStrip (afterColon (pyStrip s))
      = pyStrip (afterColon (rstrip (lstrip s))) := rfl
    _ = pyStrip (rstrip (afterColon (lstrip s))) := by
          rw [afterColon_rstrip _ h2]
    _ = pyStrip (afterColon (lstrip s)) := pyStrip_rstrip _
    _ = pyStrip (afterColon s) := by rw [afterColon_lstrip s h]

theorem clean_text_no_colon (s : List Char) (h : ':' ∉ s) :
    clean_text s = stripIntroSub (pyStrip s) := by
  simp only [clean_text]
  rw [if_neg (colon_not_mem_pyStrip s h)]

/-- C4: text cleanup in `generate_text`.  For an input containing a colon
the output is the trimmed remainder after the first colon of the input;
for a colon-free input, one leading occurrence of one of the four
conversational phrases plus its following whitespace is stripped
case-insensitively (no phrase, no change; a repeated phrase is stripped
only once); the spec's shark example evaluates accordingly. -/
theorem text_cleanup_spec :
    (∀ s : List Char, ':' ∈ s → clean_text s = pyStrip (afterColon s)) ∧
    (∀ s : List Char, ':' ∉ s → clean_text s = stripIntroSub (pyStrip s)) ∧
    (∀ s : List Char, (∀ q ∈ introPhrases, ciStartsWith q s = false) →
      stripIntroSub s = s) ∧
    clean_text sharkInput = "fun fact about sharks".data ∧
    clean_text ("Sure, Sure, yes".data) = "Sure, yes".data := by
  refine ⟨clean_text_colon, clean_text_no_colon, ?_, by decide, by decide⟩
  intro s hq
  unfold stripIntroSub
  have hnone : introPhrases.find? (fun q => ciStartsWith q s) = none :=
    List.find?_eq_none.mpr (fun x hx => by simp [hq x hx])
  rw [hnone]

/-- C4 witness: the colon branch at the concrete input `"a: b"`. -/
theorem text_cleanup_spec_witness :
    ':' ∈ "a: b".data ∧
    clean_text "a: b".data = pyStrip (afterColon "a: b".data) :=
  ⟨by decide, text_cleanup_spec.1 "a: b".data (by decide)⟩

end BusyBook
